import Mathlib

/-!
Shallow embedding of
`legal-api/src/legal_api/services/filings/validations/incorporation_application.py`
(validation of an incorporation-application filing) together with theorems
checking the natural-language specification of that module.

Modelling conventions:
* Python dicts become Lean structures (for fixed schemas) or ordered
  association lists `List (String × _)` (for open mappings); a missing key
  is `none` and raises `PyExc.keyError` on bracket indexing.
* Machine time is modelled as `Int` seconds; `timedelta(minutes=2)` is `120`
  and `timedelta(days=10)` is `864000`.
* Code that can raise returns `Except PyExc _`.
* External collaborators that the module calls (pycountry fuzzy search and
  the shared sub-validators) are passed in as function parameters.
-/

set_option autoImplicit false

namespace IncorporationApplication

/-- A single validation error entry, the Python dict `{error: ..., path?: ...}`. -/
structure ValErr where
  error : String
  path : Option String
deriving DecidableEq

/-- The Python exceptions the module can let escape. -/
inductive PyExc
  | keyError
  | zeroDivisionError
deriving DecidableEq

/-- Python `d[k]` on an optional field: raises `KeyError` when the key is absent. -/
def pyIndex {α : Type} (o : Option α) : Except PyExc α :=
  match o with
  | some v => Except.ok v
  | none => Except.error PyExc.keyError

/-- Ordered association-list lookup, modelling Python dict lookup. -/
def alookup {α : Type} (l : List (String × α)) (k : String) : Option α :=
  match l with
  | [] => none
  | (k2, v) :: rest => if k2 = k then some v else alookup rest k

/-- Python truthiness of an optional string value (`None` and `""` are falsy). -/
def strTruthy : Option String → Bool
  | some s => decide (s ≠ "")
  | none => false

/-- Models a Python string that is fed to `datetime.fromisoformat`: it either
parses to a timestamp (`Int` seconds) or is rejected with `ValueError`.
The raw text is kept because the code interpolates it into messages and the
correction rule compares the raw header values. -/
inductive DateStr
  | parsable (t : Int) (raw : String)
  | malformed (raw : String)
deriving DecidableEq

/-- The raw text of the header value. -/
def DateStr.raw : DateStr → String
  | .parsable _ r => r
  | .malformed r => r

/-- Modelled from the spec: `dt.fromisoformat` (from `legal_api.utils.datetime`,
not among the provided sources) parses an ISO-8601 timestamp, raising
`ValueError` (here: `none`) on malformed input. -/
def fromisoformat : DateStr → Option Int
  | .parsable t _ => some t
  | .malformed _ => none

/-- An office address record: `addressRegion` is read with `.get` (missing key
tolerated), `addressCountry` with `['addressCountry']` (missing key raises). -/
structure Address where
  addressRegion : Option String
  addressCountry : Option String
deriving DecidableEq

/-- The `offices` mapping: office name to ordered mapping of address name to
address record. -/
abbrev Offices := List (String × List (String × Address))

/-- The dict `party['officer']`, of which only `['id']` is read. -/
structure Officer where
  id : String
deriving DecidableEq

/-- One element of `party['roles']`. -/
structure Role where
  roleType : String
deriving DecidableEq

/-- A party record. `mailingAddress` is an ordered dict whose values may be
JSON null (`none`). `officer`, `roles` and `mailingAddress` are bracket-indexed
in the code, so a missing key raises. -/
structure Party where
  officer : Option Officer
  roles : Option (List Role)
  mailingAddress : Option (List (String × Option String))
deriving DecidableEq

/-- The `nameRequest` sub-section; only `legalType` is relevant here. -/
structure NameRequest where
  legalType : Option String
deriving DecidableEq

/-- The `cooperative` sub-section. `otherKeys` records the names of any further
keys of the dict, so that Python truthiness of the dict is representable. -/
structure CoopSection where
  rulesFileKey : Option String
  memorandumFileKey : Option String
  otherKeys : List String
deriving DecidableEq

/-- One filing-type section (`filing['incorporationApplication']` or
`filing['correction']`). `type` is the correction sub-type read with
`.get('type')`; `courtOrder` stands for the opaque court-order payload
(`none` models an absent or falsy entry). -/
structure FilingSection where
  nameRequest : Option NameRequest
  offices : Option Offices
  parties : Option (List Party)
  cooperative : Option CoopSection
  courtOrder : Option String
  type : Option String
deriving DecidableEq

/-- The filing header; only `effectiveDate` is read by this module. -/
structure Header where
  effectiveDate : Option DateStr
deriving DecidableEq

/-- The `filing` dict: the optional `header` plus the filing-type sections. -/
structure FilingBody where
  header : Option Header
  sections : List (String × FilingSection)
deriving DecidableEq

/-- The whole submitted document. `extraTopKeys` records whether the dict has
keys other than `filing`, so that Python truthiness (`if not incorporation_json`)
is representable. -/
structure Doc where
  filing : Option FilingBody
  extraTopKeys : Bool
deriving DecidableEq

/-- Python truthiness of the document dict. -/
def docTruthy (d : Doc) : Bool :=
  d.filing.isSome || d.extraTopKeys

/-- Lookup `filing_json['filing'][filing_type]`. -/
def getSection (d : Doc) (filing_type : String) : Except PyExc FilingSection := do
  let fb ← pyIndex d.filing
  pyIndex (alookup fb.sections filing_type)

/-- Modelled from the spec: `get_str(incorporation_json, legal_type_path)`
(from `legal_api.services.utils`, not among the provided sources) extracts the
string at `/filing/incorporationApplication/nameRequest/legalType`, returning
`None` when any component of the path is absent. -/
def get_str_legalType (d : Doc) : Option String := do
  let fb ← d.filing
  let sec ← alookup fb.sections "incorporationApplication"
  let nr ← sec.nameRequest
  nr.legalType

/-- Modelled from the spec: the enumerated legal-type codes of
`Business.LegalTypes` (from `legal_api.models`, not among the provided
sources). Only their identity and mutual distinctness matter here. -/
def LegalTypes.BCOMP : String := "BEN"

/-- Modelled from the spec: legal-type code for an ordinary company. -/
def LegalTypes.COMP : String := "BC"

/-- Modelled from the spec: legal-type code for an unlimited liability company. -/
def LegalTypes.BC_ULC_COMPANY : String := "ULC"

/-- Modelled from the spec: legal-type code for a community contribution company. -/
def LegalTypes.BC_CCC : String := "CC"

/-- Modelled from the spec: legal-type code for a cooperative. -/
def LegalTypes.COOP : String := "CP"

/-! ## Office and address validation -/

/-- Path of the error attached to an invalid office key. -/
def officesPath (filing_type : String) : String :=
  "/filing/" ++ filing_type ++ "/offices"

/-- Path of a region error for one address entry. -/
def regionPath (filing_type address_key k : String) : String :=
  "/filing/" ++ filing_type ++ "/offices/" ++ address_key ++ "/" ++ k ++ "/addressRegion"

/-- Path of a country error for one address entry. -/
def countryPath (filing_type address_key k : String) : String :=
  "/filing/" ++ filing_type ++ "/offices/" ++ address_key ++ "/" ++ k ++ "/addressCountry"

/-- Body of the `for k, v in addresses[address_key].items()` loop of
`_validate_address`: the region check, then the fuzzy country resolution whose
failure (or resolution to anything but CA) is converted into a country error. -/
def addressEntryErrors (fuzzy : String → Option String)
    (filing_type address_key k : String) (v : Address) : Except PyExc (List ValErr) := do
  let region := v.addressRegion
  let country ← pyIndex v.addressCountry
  let m1 : List ValErr :=
    if region ≠ some "BC" then
      [⟨"Address Region must be \x27BC\x27.", some (regionPath filing_type address_key k)⟩]
    else []
  let m2 : List ValErr :=
    match fuzzy country with
    | some alpha2 =>
      if alpha2 ≠ "CA" then
        [⟨"Address Country must be \x27CA\x27.", some (countryPath filing_type address_key k)⟩]
      else []
    | none =>
      [⟨"Address Country must be \x27CA\x27.", some (countryPath filing_type address_key k)⟩]
  pure (m1 ++ m2)

/-- The address loop of `_validate_address`. -/
def addressLoop (fuzzy : String → Option String) (filing_type address_key : String) :
    List (String × Address) → Except PyExc (List ValErr)
  | [] => pure []
  | (k, v) :: rest => do
    let e ← addressEntryErrors fuzzy filing_type address_key k v
    let es ← addressLoop fuzzy filing_type address_key rest
    pure (e ++ es)

/-- Source `_validate_address(addresses, address_key, filing_type)`. -/
def _validate_address (fuzzy : String → Option String) (addresses : Offices)
    (address_key filing_type : String) : Except PyExc (List ValErr) := do
  let entries ← pyIndex (alookup addresses address_key)
  addressLoop fuzzy filing_type address_key entries

/-- The error recorded for an offices key that is not an allowed office role. -/
def invalidOfficeErr (filing_type item : String) : ValErr :=
  ⟨"Invalid office " ++ item ++ ". Only registeredOffice and recordsOffice are allowed.",
    some (officesPath filing_type)⟩

/-- The `for item in addresses.keys()` loop of `validate_offices`. The full
mapping is carried along because `_validate_address` receives it whole. -/
def officesLoop (fuzzy : String → Option String) (addresses : Offices)
    (filing_type : String) : List String → Except PyExc (List ValErr)
  | [] => pure []
  | item :: rest => do
    let head ←
      if item = "registeredOffice" ∨ item = "recordsOffice" then
        _validate_address fuzzy addresses item filing_type
      else
        pure [invalidOfficeErr filing_type item]
    let tail ← officesLoop fuzzy addresses filing_type rest
    pure (head ++ tail)

/-- Source `validate_offices(filing_json, filing_type)`. -/
def validate_offices (fuzzy : String → Option String) (filing_json : Doc)
    (filing_type : String) : Except PyExc (List ValErr) := do
  let sec ← getSection filing_json filing_type
  let offices_array ← pyIndex sec.offices
  officesLoop fuzzy offices_array filing_type (offices_array.map Prod.fst)

/-! ## Role validation -/

/-- The three role tallies of `validate_roles`. -/
structure RoleCounts where
  completing : Nat
  incorporator : Nat
  director : Nat
deriving DecidableEq

/-- The `for role in item['roles']` inner loop of `validate_roles`. -/
def countRolesOfParty : List Role → RoleCounts → RoleCounts
  | [], c => c
  | r :: rest, c =>
    countRolesOfParty rest
      ⟨c.completing + (if r.roleType = "Completing Party" then 1 else 0),
       c.incorporator + (if r.roleType = "Incorporator" then 1 else 0),
       c.director + (if r.roleType = "Director" then 1 else 0)⟩

/-- The `for item in parties_array` outer loop of `validate_roles`. -/
def rolesLoop : List Party → RoleCounts → Except PyExc RoleCounts
  | [], c => pure c
  | p :: rest, c => do
    let roles ← pyIndex p.roles
    rolesLoop rest (countRolesOfParty roles c)

/-- The per-legal-type minimum-director table of `validate_roles`. -/
def min_director_count_info : List (String × Nat) :=
  [(LegalTypes.BCOMP, 1), (LegalTypes.COMP, 1), (LegalTypes.BC_ULC_COMPANY, 1),
   (LegalTypes.BC_CCC, 3)]

/-- The error path shared by all role errors. -/
def rolesPath (filing_type : String) : String :=
  "/filing/" ++ filing_type ++ "/parties/roles"

/-- The completing-party branch of `validate_roles`: the first if/elif block,
as a function of the filing type, the correction sub-type and the tallies. -/
def completingPartyErrors (filing_type : String) (ctype : Option String)
    (c : RoleCounts) : List ValErr :=
  let err_path := rolesPath filing_type
  if filing_type = "incorporationApplication" ∨
      (filing_type = "correction" ∧ ctype = some "CLIENT") then
    if c.completing = 0 then
      [⟨"Must have a minimum of one completing party", some err_path⟩]
    else if c.completing > 1 then
      [⟨"Must have a maximum of one completing party", some err_path⟩]
    else []
  else if filing_type = "correction" ∧ ctype = some "STAFF" ∧ c.completing ≠ 0 then
    [⟨"Should not provide completing party when correction type is STAFF", some err_path⟩]
  else []

/-- The legal-type-dependent branch of `validate_roles`: the cooperative
incorporator/director rules, else the table-driven incorporator and
minimum-director rules. -/
def otherRoleErrors (legal_type filing_type : String) (c : RoleCounts) : List ValErr :=
  let err_path := rolesPath filing_type
  if legal_type = LegalTypes.COOP then
    (if c.incorporator > 0 then
      [⟨"Incorporator is an invalid party role", some err_path⟩] else []) ++
    (if c.director < 3 then
      [⟨"Must have a minimum of three Directors", some err_path⟩] else [])
  else
    let min_director_count := (alookup min_director_count_info legal_type).getD 0
    (if filing_type = "incorporationApplication" ∧ c.incorporator < 1 then
      [⟨"Must have a minimum of one Incorporator", some err_path⟩]
    else if filing_type = "correction" ∧ c.incorporator > 0 then
      [⟨"Cannot correct Incorporator role", some err_path⟩]
    else []) ++
    (if c.director < min_director_count then
      [⟨"Must have a minimum of " ++ toString min_director_count ++ " Director", some err_path⟩]
    else [])

/-- Source `validate_roles(filing_dict, legal_type, filing_type)`: tally the roles,
then collect the completing-party block followed by the legal-type block. -/
def validate_roles (filing_dict : Doc) (legal_type filing_type : String) :
    Except PyExc (Option (List ValErr)) := do
  let sec ← getSection filing_dict filing_type
  let parties_array ← pyIndex sec.parties
  let c ← rolesLoop parties_array ⟨0, 0, 0⟩
  let msg := completingPartyErrors filing_type sec.type c ++
    otherRoleErrors legal_type filing_type c
  pure (if msg.isEmpty then none else some msg)

/-! ## Party names -/

/-- The party loop of `validate_parties_names`; `vpn` is the opaque
`validate_party_name` collaborator. -/
def partiesNamesLoop (vpn : String → Party → String → List ValErr)
    (legal_type party_path : String) : List Party → List ValErr
  | [] => []
  | p :: rest => vpn legal_type p party_path ++ partiesNamesLoop vpn legal_type party_path rest

/-- Source `validate_parties_names(incorporation_json, legal_type, filing_type)`. -/
def validate_parties_names (vpn : String → Party → String → List ValErr)
    (incorporation_json : Doc) (legal_type filing_type : String) :
    Except PyExc (Option (List ValErr)) := do
  let sec ← getSection incorporation_json filing_type
  let parties_array ← pyIndex sec.parties
  let party_path := "/filing/" ++ filing_type ++ "/parties"
  let msg := partiesNamesLoop vpn legal_type party_path parties_array
  pure (if msg.isEmpty then none else some msg)

/-! ## Party mailing addresses -/

/-- The three counters of `validate_parties_mailing_address`. -/
structure MailCounts where
  bc : Nat
  ca : Nat
  total : Nat
deriving DecidableEq

/-- Python `.get(k, None)` on a dict whose values may themselves be null. -/
def pyDictGet (l : List (String × Option String)) (k : String) : Option String :=
  (alookup l k).getD none

/-- Error path of a null mailing-address field. -/
def nullFieldPath (filing_type oid k : String) : String :=
  "/filing/" ++ filing_type ++ "/parties/" ++ oid ++ "/mailingAddress/" ++ k ++ "/None/"

/-- The error recorded for a null mailing-address field. -/
def nullFieldErr (filing_type oid k : String) : ValErr :=
  ⟨"Person " ++ oid ++ ": Mailing address " ++ k ++ " None is invalid",
    some (nullFieldPath filing_type oid k)⟩

/-- The `for k, v in item['mailingAddress'].items()` inner loop of
`validate_parties_mailing_address`. Note the counter increments sit inside
this inner loop in the source, so each mailing-address key contributes one
increment; the region and country values read via `.get` are constant across
the inner loop. -/
def mailInnerLoop (filing_type : String) (item : Party)
    (ma : List (String × Option String)) :
    List (String × Option String) → List ValErr × MailCounts →
      Except PyExc (List ValErr × MailCounts)
  | [], st => pure st
  | (k, v) :: rest, st => do
    let msg ←
      match v with
      | none => do
        let officer ← pyIndex item.officer
        pure (st.1 ++ [nullFieldErr filing_type officer.id k])
      | some _ => pure st.1
    let c := st.2
    let bc := if pyDictGet ma "addressRegion" = some "BC" then c.bc + 1 else c.bc
    let p :=
      match pyDictGet ma "addressCountry" with
      | some s => if s ≠ "" then (c.total + 1, if s = "CA" then c.ca + 1 else c.ca)
                  else (c.total, c.ca)
      | none => (c.total, c.ca)
    mailInnerLoop filing_type item ma rest (msg, ⟨bc, p.2, p.1⟩)

/-- The `for item in parties_array` outer loop of
`validate_parties_mailing_address`. -/
def mailPartiesLoop (filing_type : String) :
    List Party → List ValErr × MailCounts → Except PyExc (List ValErr × MailCounts)
  | [], st => pure st
  | item :: rest, st => do
    let ma ← pyIndex item.mailingAddress
    let st2 ← mailInnerLoop filing_type item ma ma st
    mailPartiesLoop filing_type rest st2

/-- The path shared by the two cooperative mailing-address errors. -/
def mailAddrPath (filing_type : String) : String :=
  "/filing/" ++ filing_type ++ "/parties/mailingAddress"

/-- The cooperative minimum-one-BC-mailing-address error. -/
def bcMailErr (filing_type : String) : ValErr :=
  ⟨"Must have minimum of one BC mailing address", some (mailAddrPath filing_type)⟩

/-- The cooperative majority-in-Canada error. -/
def majMailErr (filing_type : String) : ValErr :=
  ⟨"Must have majority of mailing addresses in Canada", some (mailAddrPath filing_type)⟩

/-- Source `validate_parties_mailing_address(incorporation_json, legal_type,
filing_type)`. The float expression
`country_ca_party_ma_count / country_total_ma_count * 100 <= 50` is modelled
exactly as `100 * ca <= 50 * total`; the division raises
`ZeroDivisionError` when `country_total_ma_count` is zero. -/
def validate_parties_mailing_address (incorporation_json : Doc)
    (legal_type filing_type : String) : Except PyExc (Option (List ValErr)) := do
  let sec ← getSection incorporation_json filing_type
  let parties_array ← pyIndex sec.parties
  let st ← mailPartiesLoop filing_type parties_array ([], ⟨0, 0, 0⟩)
  let msg := st.1
  let c := st.2
  if legal_type = LegalTypes.COOP then
    let msg := if c.bc < 1 then msg ++ [bcMailErr filing_type] else msg
    if c.total = 0 then
      Except.error PyExc.zeroDivisionError
    else
      let msg := if 100 * c.ca ≤ 50 * c.total then msg ++ [majMailErr filing_type] else msg
      pure (if msg.isEmpty then none else some msg)
  else
    pure (if msg.isEmpty then none else some msg)

/-! ## Effective date -/

/-- Lookup `incorporation_json['filing']['header']['effectiveDate']`, as the chain of
optional accesses whose failure the source catches as `KeyError`. -/
def effDateOf (d : Doc) : Option DateStr := do
  let fb ← d.filing
  let h ← fb.header
  h.effectiveDate

/-- The parse-failure message, `'%s is an invalid ISO format for
effective_date.' % filing_effective_date`. -/
def invalidIsoMsg (raw : String) : String :=
  raw ++ " is an invalid ISO format for effective_date."

/-- The minimum-bound error of the effective-date rule. -/
def minDateErr : ValErr :=
  ⟨"Invalid Datetime, effective date must be a minimum of 2 minutes ahead.", none⟩

/-- The maximum-bound error of the effective-date rule. -/
def maxDateErr : ValErr :=
  ⟨"Invalid Datetime, effective date must be a maximum of 10 days ahead.", none⟩

/-- Source `validate_incorporation_effective_date(incorporation_json)`; `now` is the
`dt.utcnow()` reading. Returning `some l` models returning the list `l`
(the source returns the still-empty `msg` on a missing header key), returning
`none` models returning Python `None`. -/
def validate_incorporation_effective_date (now : Int) (incorporation_json : Doc) :
    Option (List ValErr) :=
  match effDateOf incorporation_json with
  | none => some []
  | some ds =>
    match fromisoformat ds with
    | none => some [⟨invalidIsoMsg ds.raw, none⟩]
    | some effective_date =>
      let msg :=
        (if effective_date < now + 120 then [minDateErr] else []) ++
        (if effective_date > now + 864000 then [maxDateErr] else [])
      if msg.isEmpty then none else some msg

/-! ## Cooperative documents -/

/-- Python truthiness of the `cooperative` dict. -/
def coopTruthy (c : CoopSection) : Bool :=
  c.rulesFileKey.isSome || c.memorandumFileKey.isSome || !c.otherKeys.isEmpty

/-- The terminal error of `validate_cooperative_documents`. -/
def coopMissingErr : ValErr :=
  ⟨"cooperative data is missing in incorporationApplication.",
    some "/filing/incorporationApplication/cooperative"⟩

/-- Source `validate_cooperative_documents(incorporation_json)`; `vpdf` is the opaque
`validate_pdf` collaborator (key and path in, errors out). -/
def validate_cooperative_documents (vpdf : String → String → List ValErr)
    (incorporation_json : Doc) : Except PyExc (List ValErr) := do
  let sec ← getSection incorporation_json "incorporationApplication"
  match sec.cooperative with
  | none => pure [coopMissingErr]
  | some cooperative =>
    if !coopTruthy cooperative then
      pure [coopMissingErr]
    else do
      let rules_file_key ← pyIndex cooperative.rulesFileKey
      let msg := vpdf rules_file_key "/filing/incorporationApplication/cooperative/rulesFileKey"
      let memorandum_file_key ← pyIndex cooperative.memorandumFileKey
      pure (msg ++ vpdf memorandum_file_key
        "/filing/incorporationApplication/cooperative/memorandumFileKey")

/-! ## Court order -/

/-- Chain `filing.get('filing', {}).get('incorporationApplication', {}).get('courtOrder', None)`. -/
def courtOrderOf (d : Doc) : Option String := do
  let fb ← d.filing
  let sec ← alookup fb.sections "incorporationApplication"
  sec.courtOrder

/-- Source `validate_ia_court_order(filing)`; `vco` is the opaque
`validate_court_order` collaborator. -/
def validate_ia_court_order (vco : String → String → List ValErr) (filing : Doc) :
    List ValErr :=
  match courtOrderOf filing with
  | some court_order => vco "/filing/incorporationApplication/courtOrder" court_order
  | none => []

/-! ## Correction effective date -/

/-- The raw effective-date header string of a document. -/
def rawEffDate (d : Doc) : Option String :=
  (effDateOf d).map DateStr.raw

/-- The immutability error of `validate_correction_effective_date`. -/
def corrDateErr : ValErr :=
  ⟨"The effective date of a filing cannot be changed in a correction.", none⟩

/-- Source `validate_correction_effective_date(filing, corrected_filing)`: the walrus
`if new_effective_date := ...` requires a truthy (present, non-empty) value
before the values are compared with Python `!=`. -/
def validate_correction_effective_date (filing corrected_filing : Doc) : Option ValErr :=
  match rawEffDate filing with
  | some new_effective_date =>
    if new_effective_date ≠ "" then
      if some new_effective_date ≠ rawEffDate corrected_filing then
        some corrDateErr
      else none
    else none
  | none => none

/-! ## Top-level orchestrator -/

/-- The values `validate` can return: an `Error(status, errors)` envelope, the
bare Python list returned by the missing-legal-type guard, or `None`. -/
inductive ValidateResult
  | envelope (status : Nat) (errors : List ValErr)
  | bareList (errors : List ValErr)
  | noErrorFound
deriving DecidableEq

/-- Pattern `err = rule(...); if err: msg.extend(err)` for a rule returning a list or
`None`; extending by the empty list coincides with the falsy-list no-op. -/
def pyExtend (msg : List ValErr) : Option (List ValErr) → List ValErr
  | some l => msg ++ l
  | none => msg

/-- The fixed legal-type document path. -/
def legalTypePath : String :=
  "/filing/incorporationApplication/nameRequest/legalType"

/-- The opaque collaborator sub-validators and lookups used by `validate`:
pycountry fuzzy search (first result alpha-2 code, `none` on `LookupError`),
`validate_party_name`, `validate_name_request`, `validate_share_structure`,
`validate_pdf` and `validate_court_order`. -/
structure Collaborators where
  fuzzyCountry : String → Option String
  vPartyName : String → Party → String → List ValErr
  vNameRequest : Doc → String → String → List ValErr
  vShareStructure : Doc → Option (List ValErr)
  vPdf : String → String → List ValErr
  vCourtOrder : String → String → List ValErr

/-- Source `validate(incorporation_json)`; `now` is the UTC clock reading used by the
effective-date rule. -/
def validate (C : Collaborators) (now : Int) (incorporation_json : Doc) :
    Except PyExc ValidateResult := do
  let filing_type := "incorporationApplication"
  if !docTruthy incorporation_json then
    pure (ValidateResult.envelope 400 [⟨"A valid filing is required.", none⟩])
  else
    let legal_type_opt := get_str_legalType incorporation_json
    if !strTruthy legal_type_opt then
      pure (ValidateResult.bareList [⟨"Legal type is required.", some legalTypePath⟩])
    else do
      let legal_type := legal_type_opt.getD ""
      let msg ← validate_offices C.fuzzyCountry incorporation_json filing_type
      let err ← validate_roles incorporation_json legal_type filing_type
      let msg := pyExtend msg err
      let err ← validate_parties_names C.vPartyName incorporation_json legal_type filing_type
      let msg := pyExtend msg err
      let err ← validate_parties_mailing_address incorporation_json legal_type filing_type
      let msg := pyExtend msg err
      let msg := msg ++ C.vNameRequest incorporation_json legal_type filing_type
      let msg ←
        if legal_type = LegalTypes.BCOMP ∨ legal_type = LegalTypes.BC_ULC_COMPANY ∨
            legal_type = LegalTypes.COMP ∨ legal_type = LegalTypes.BC_CCC then
          pure (pyExtend msg (C.vShareStructure incorporation_json))
        else if legal_type = LegalTypes.COOP then do
          let ce ← validate_cooperative_documents C.vPdf incorporation_json
          pure (msg ++ ce)
        else
          pure msg
      let msg := pyExtend msg (validate_incorporation_effective_date now incorporation_json)
      let msg := msg ++ validate_ia_court_order C.vCourtOrder incorporation_json
      if !msg.isEmpty then
        pure (ValidateResult.envelope 400 msg)
      else
        pure ValidateResult.noErrorFound

/-! ## Helpers shared by the theorems -/

/-- The error list carried by a rule result that is a list or `None`. -/
def optErrs : Option (List ValErr) → List ValErr
  | some l => l
  | none => []

/-- The parties sequence of the incorporation-application section, empty when
the path is absent. -/
def sectionParties (d : Doc) : List Party :=
  match getSection d "incorporationApplication" with
  | Except.ok sec => sec.parties.getD []
  | Except.error _ => []

/-- A collaborator assignment in which every sub-validator returns no errors
and the fuzzy country search always fails. -/
def noopCollab : Collaborators :=
  ⟨fun _ => none, fun _ _ _ => [], fun _ _ _ => [], fun _ => none,
   fun _ _ => [], fun _ _ => []⟩

/-- A `FilingSection` with every key absent. -/
def emptySection : FilingSection :=
  ⟨none, none, none, none, none, none⟩

/-- Builds a document whose only content is an incorporation-application
section. -/
def docOfSection (sec : FilingSection) : Doc :=
  ⟨some ⟨none, [("incorporationApplication", sec)]⟩, false⟩

@[simp]
theorem optErrs_ofIsEmpty (l : List ValErr) :
    optErrs (if l.isEmpty then none else some l) = l := by
  cases l <;> simp [optErrs]

/-! ## C1: missing legal type short-circuits with a single bare-list error -/

/-- The error appended by the missing-legal-type guard. -/
def legalTypeErr : ValErr :=
  ⟨"Legal type is required.", some legalTypePath⟩

/-- C1. For every non-empty document without a truthy value at the legal-type
path, `validate` returns, for every collaborator assignment and clock, the
single legal-type error referencing the legal-type path, with no other rule
contributing. The code-bug side: the value is the bare Python list
(`ValidateResult.bareList`), not the 400 `Error` envelope the spec promises. -/
theorem C1_legal_type_guard (C : Collaborators) (now : Int) (d : Doc)
    (h1 : docTruthy d = true) (h2 : strTruthy (get_str_legalType d) = false) :
    validate C now d = Except.ok (ValidateResult.bareList [legalTypeErr]) := by
  simp [validate, h1, h2, legalTypeErr]
  rfl

/-- Witness for C1: the concrete failing input
`{"filing": {"incorporationApplication": {"nameRequest": {}}}}`. -/
theorem C1_legal_type_guard_witness :
    validate noopCollab 0 (docOfSection ⟨some ⟨none⟩, none, none, none, none, none⟩) =
      Except.ok (ValidateResult.bareList [legalTypeErr]) :=
  C1_legal_type_guard noopCollab 0 _ rfl rfl

/-! ## C5: absent effective date is no error, malformed is a single parse error -/

/-- A non-empty document with no effective-date header at all. -/
def docNoEff : Doc := ⟨none, true⟩

/-- A document whose effective-date header does not parse. -/
def docBadEff : Doc := ⟨some ⟨some ⟨some (DateStr.malformed "not-a-date")⟩, []⟩, false⟩

/-- C5. If the effective-date header field is absent, the effective-date rule
returns the still-empty error list (no error at all); if present but not
parseable as ISO-8601, it returns exactly the one parse-format error and
neither bound check fires. -/
theorem C5_effective_date_guards (now : Int) (d : Doc) :
    (effDateOf d = none → validate_incorporation_effective_date now d = some []) ∧
    (∀ s, effDateOf d = some (DateStr.malformed s) →
      validate_incorporation_effective_date now d = some [⟨invalidIsoMsg s, none⟩]) := by
  constructor
  · intro h
    simp [validate_incorporation_effective_date, h]
  · intro s h
    simp [validate_incorporation_effective_date, h, fromisoformat, DateStr.raw]

/-- Witness for C5 at two concrete documents. -/
theorem C5_effective_date_guards_witness :
    validate_incorporation_effective_date 0 docNoEff = some [] ∧
    validate_incorporation_effective_date 0 docBadEff =
      some [⟨invalidIsoMsg "not-a-date", none⟩] :=
  ⟨(C5_effective_date_guards 0 docNoEff).1 rfl,
   (C5_effective_date_guards 0 docBadEff).2 "not-a-date" rfl⟩

/-! ## C7: correction cannot change the effective date -/

/-- A correction document carrying one effective-date header string. -/
def corrDocA : Doc :=
  ⟨some ⟨some ⟨some (DateStr.parsable 0 "2021-01-01T00:00:00+00:00")⟩, []⟩, false⟩

/-- A document with a different effective-date header string. -/
def corrDocB : Doc :=
  ⟨some ⟨some ⟨some (DateStr.parsable 5 "2021-01-02T00:00:00+00:00")⟩, []⟩, false⟩

/-- C7. For the effective-date correction rule: a supplied (truthy) new
effective date differing from the original filing header yields exactly the
one immutability error; a matching or absent new date yields none. -/
theorem C7_correction_effective_date (filing corrected : Doc) (s : String) :
    (rawEffDate filing = some s → s ≠ "" → some s ≠ rawEffDate corrected →
      validate_correction_effective_date filing corrected = some corrDateErr) ∧
    (rawEffDate filing = some s → rawEffDate corrected = some s →
      validate_correction_effective_date filing corrected = none) ∧
    (rawEffDate filing = none →
      validate_correction_effective_date filing corrected = none) := by
  refine ⟨?_, ?_, ?_⟩
  · intro h1 h2 h3
    simp [validate_correction_effective_date, h1, h2, h3]
  · intro h1 h2
    simp [validate_correction_effective_date, h1, h2]
  · intro h1
    simp [validate_correction_effective_date, h1]

/-- Witness for C7: a changed date errors, an identical date does not. -/
theorem C7_correction_effective_date_witness :
    validate_correction_effective_date corrDocA corrDocB = some corrDateErr ∧
    validate_correction_effective_date corrDocA corrDocA = none :=
  ⟨(C7_correction_effective_date corrDocA corrDocB "2021-01-01T00:00:00+00:00").1
      rfl (by decide) (by decide),
   (C7_correction_effective_date corrDocA corrDocA "2021-01-01T00:00:00+00:00").2.1
      rfl rfl⟩

/-! ## C4: effective-date bounds -/

/-- The two messages of the bound checks are distinct errors. -/
theorem minDateErr_ne_maxDateErr : minDateErr ≠ maxDateErr := by decide

/-- Symmetric form of the distinctness of the two bound errors. -/
theorem maxDateErr_ne_minDateErr : maxDateErr ≠ minDateErr := by decide

/-- Whether both bound errors appear in the effective-date rule output. -/
def edBothErrors (now : Int) (d : Doc) : Bool :=
  decide (minDateErr ∈ optErrs (validate_incorporation_effective_date now d)) &&
  decide (maxDateErr ∈ optErrs (validate_incorporation_effective_date now d))

/-- No clock reading and no document make the effective-date rule report the
two bound errors together. -/
theorem edBothErrors_false (now : Int) (d : Doc) :
    edBothErrors now d = false := by
  unfold edBothErrors
  cases hd : effDateOf d with
  | none => simp [validate_incorporation_effective_date, hd, optErrs]
  | some ds =>
    cases ds with
    | malformed r =>
      simp [validate_incorporation_effective_date, hd, fromisoformat, optErrs,
        minDateErr_ne_maxDateErr]
      intro h1 h2
      exact absurd (h1.trans h2.symm) minDateErr_ne_maxDateErr
    | parsable t r =>
      simp only [validate_incorporation_effective_date, hd, fromisoformat]
      by_cases hlt : t < now + 120 <;> by_cases hgt : t > now + 864000 <;>
        simp [hlt, hgt, optErrs, minDateErr_ne_maxDateErr, maxDateErr_ne_minDateErr]
      omega

/-- The conjunct of C4 claiming that for some input both bound errors are
reported together, formalised following the claim words. -/
def someInputReportsBothDateErrors : Prop :=
  ∃ (now : Int) (d : Doc),
    minDateErr ∈ optErrs (validate_incorporation_effective_date now d) ∧
    maxDateErr ∈ optErrs (validate_incorporation_effective_date now d)

/-- Counterexample to C4 as stated: the conjunct claiming that some input
reports both bound errors together is false, because
`effective_date < now + 2 minutes` and `effective_date > now + 10 days` are
mutually exclusive, so the claimed input does not exist. -/
theorem C4_counterexample_no_double_error : someInputReportsBothDateErrors = False := by
  simp only [eq_iff_iff, iff_false]
  rintro ⟨now, d, h1, h2⟩
  have hfalse := edBothErrors_false now d
  simp [edBothErrors, h1, h2] at hfalse

/-- A document carrying a parseable effective date with timestamp `t`. -/
def dateDoc (t : Int) : Doc :=
  ⟨some ⟨some ⟨some (DateStr.parsable t "eff")⟩, []⟩, false⟩

/-- C4 as amended. For every filing whose effective date parses to `t`: the
minimum-bound error fires exactly when `t` is under now + 2 minutes, the
maximum-bound error exactly when `t` is over now + 10 days, and the rule
returns no error exactly when `t` lies in the window; the two bound checks
are independent if-statements, but (see the counterexample) no input can
trigger both. In particular now + 1 minute yields only the minimum error,
now + 11 days only the maximum error, and now + 5 days no date error. -/
theorem C4_effective_date_window (now t : Int) (d : Doc) (ds : DateStr)
    (h1 : effDateOf d = some ds) (h2 : fromisoformat ds = some t) :
    ((minDateErr ∈ optErrs (validate_incorporation_effective_date now d)) ↔ t < now + 120) ∧
    ((maxDateErr ∈ optErrs (validate_incorporation_effective_date now d)) ↔
      now + 864000 < t) ∧
    (validate_incorporation_effective_date now d = none ↔
      (now + 120 ≤ t ∧ t ≤ now + 864000)) := by
  simp only [validate_incorporation_effective_date, h1, h2]
  by_cases hlt : t < now + 120 <;> by_cases hgt : t > now + 864000 <;>
    simp [hlt, hgt, optErrs, minDateErr_ne_maxDateErr, maxDateErr_ne_minDateErr] <;>
    omega

/-- Witness for C4 at now = 0 with a date one minute ahead. -/
theorem C4_effective_date_window_witness :
    ((minDateErr ∈ optErrs (validate_incorporation_effective_date 0 (dateDoc 60))) ↔
      (60 : Int) < 0 + 120) ∧
    ((maxDateErr ∈ optErrs (validate_incorporation_effective_date 0 (dateDoc 60))) ↔
      (0 : Int) + 864000 < 60) ∧
    (validate_incorporation_effective_date 0 (dateDoc 60) = none ↔
      ((0 : Int) + 120 ≤ 60 ∧ (60 : Int) ≤ 0 + 864000)) :=
  C4_effective_date_window 0 60 (dateDoc 60) (DateStr.parsable 60 "eff") rfl rfl

/-! ## C6: completing-party count rules -/

/-- Specification-level count of Completing Party roles in one role list. -/
def rolesCompletingCount : List Role → Nat
  | [] => 0
  | r :: rest => (if r.roleType = "Completing Party" then 1 else 0) + rolesCompletingCount rest

/-- Specification-level count of Completing Party roles across all parties. -/
def specCompletingCount : List Party → Nat
  | [] => 0
  | p :: rest => rolesCompletingCount (p.roles.getD []) + specCompletingCount rest

/-- Number of errors in a list carrying a given message. -/
def countMsg (errs : List ValErr) (m : String) : Nat :=
  (errs.filter (fun e => decide (e.error = m))).length

theorem countMsg_append (a b : List ValErr) (m : String) :
    countMsg (a ++ b) m = countMsg a m + countMsg b m := by
  simp [countMsg]

theorem countRolesOfParty_completing (rs : List Role) (c : RoleCounts) :
    (countRolesOfParty rs c).completing = c.completing + rolesCompletingCount rs := by
  induction rs generalizing c with
  | nil => simp [countRolesOfParty, rolesCompletingCount]
  | cons r rest ih =>
    simp only [countRolesOfParty, rolesCompletingCount, ih]
    omega

theorem rolesLoop_completing (ps : List Party) (c res : RoleCounts)
    (h : rolesLoop ps c = Except.ok res) :
    res.completing = c.completing + specCompletingCount ps := by
  induction ps generalizing c with
  | nil =>
    simp only [rolesLoop, pure, Except.pure, Except.ok.injEq] at h
    simp [h.symm, specCompletingCount]
  | cons p rest ih =>
    cases hr : p.roles with
    | none => simp [rolesLoop, hr, pyIndex, Bind.bind, Except.bind] at h
    | some rs =>
      simp only [rolesLoop, hr, pyIndex, Bind.bind, Except.bind] at h
      have := ih (countRolesOfParty rs c) h
      simp only [specCompletingCount, hr, Option.getD_some] at this ⊢
      rw [this, countRolesOfParty_completing]
      omega

/-- The minimum-director table only ever yields 0, 1 or 3. -/
theorem min_director_lookup_cases (lt : String) :
    (alookup min_director_count_info lt).getD 0 = 0 ∨
    (alookup min_director_count_info lt).getD 0 = 1 ∨
    (alookup min_director_count_info lt).getD 0 = 3 := by
  simp only [min_director_count_info, alookup, LegalTypes.BCOMP, LegalTypes.COMP,
    LegalTypes.BC_ULC_COMPANY, LegalTypes.BC_CCC]
  split_ifs <;> simp

/-- The legal-type branch never mentions the two completing-party messages. -/
theorem countMsg_otherRoleErrors (legal_type filing_type : String) (c : RoleCounts) :
    countMsg (otherRoleErrors legal_type filing_type c)
      "Must have a minimum of one completing party" = 0 ∧
    countMsg (otherRoleErrors legal_type filing_type c)
      "Must have a maximum of one completing party" = 0 := by
  rcases min_director_lookup_cases legal_type with hmd | hmd | hmd <;>
    simp only [otherRoleErrors, hmd] <;>
    split_ifs <;> simp [countMsg] <;> try decide

/-- On a plain incorporation application the completing-party branch reduces
to the pure count rule. -/
theorem completingPartyErrors_ia (ctype : Option String) (c : RoleCounts) :
    completingPartyErrors "incorporationApplication" ctype c =
      (if c.completing = 0 then
        [⟨"Must have a minimum of one completing party",
          some (rolesPath "incorporationApplication")⟩]
      else if c.completing > 1 then
        [⟨"Must have a maximum of one completing party",
          some (rolesPath "incorporationApplication")⟩]
      else []) := by
  simp [completingPartyErrors]

/-- C6. For a (non-correction) incorporation application, writing `n` for the
number of Completing Party roles across all parties: the roles validator
emits exactly one minimum-one-completing-party error when `n = 0`, exactly
one maximum-one error when `n > 1`, and neither when `n = 1`, regardless of
what the other branches of the validator contribute. -/
theorem C6_completing_party_rules (d : Doc) (legal_type : String)
    (r : Option (List ValErr))
    (h : validate_roles d legal_type "incorporationApplication" = Except.ok r) :
    countMsg (optErrs r) "Must have a minimum of one completing party" =
      (if specCompletingCount (sectionParties d) = 0 then 1 else 0) ∧
    countMsg (optErrs r) "Must have a maximum of one completing party" =
      (if 1 < specCompletingCount (sectionParties d) then 1 else 0) := by
  cases hsec : getSection d "incorporationApplication" with
  | error e =>
    rw [validate_roles, hsec] at h
    simp [Bind.bind, Except.bind] at h
  | ok sec =>
    cases hps : sec.parties with
    | none =>
      rw [validate_roles, hsec] at h
      simp [Bind.bind, Except.bind, hps, pyIndex] at h
    | some ps =>
      cases hloop : rolesLoop ps ⟨0, 0, 0⟩ with
      | error e =>
        rw [validate_roles, hsec] at h
        simp [Bind.bind, Except.bind, hps, pyIndex, hloop] at h
      | ok c =>
        rw [validate_roles, hsec] at h
        simp only [Bind.bind, Except.bind, hps, pyIndex, hloop, pure, Except.pure,
          Except.ok.injEq] at h
        have hparties : sectionParties d = ps := by
          simp [sectionParties, hsec, hps]
        have hcomp : c.completing = specCompletingCount ps := by
          have := rolesLoop_completing ps ⟨0, 0, 0⟩ c hloop
          simpa using this
        rw [hparties, ← hcomp, ← h]
        rw [optErrs_ofIsEmpty, countMsg_append, countMsg_append,
          (countMsg_otherRoleErrors legal_type "incorporationApplication" c).1,
          (countMsg_otherRoleErrors legal_type "incorporationApplication" c).2,
          completingPartyErrors_ia]
        constructor
        · split_ifs <;> simp_all [countMsg]
        · split_ifs <;> simp_all [countMsg] <;> omega

/-! ## C2 and C3: the mailing-address counters -/

/-- The mailing-address dict of a party (empty when the key is absent). -/
def maOf (p : Party) : List (String × Option String) :=
  p.mailingAddress.getD []

/-- The region value `.get` reads for a party, constant across the inner loop. -/
def partyRegion (p : Party) : Option String :=
  pyDictGet (maOf p) "addressRegion"

/-- The country value `.get` reads for a party, constant across the inner loop. -/
def partyCountry (p : Party) : Option String :=
  pyDictGet (maOf p) "addressCountry"

/-- Weighted BC counter: one increment per mailing-address key of each
BC-region party (what the code actually accumulates). -/
def keyBcCount : List Party → Nat
  | [] => 0
  | p :: rest => (if partyRegion p = some "BC" then (maOf p).length else 0) + keyBcCount rest

/-- Weighted CA counter: one increment per mailing-address key of each
CA-country party. -/
def keyCaCount : List Party → Nat
  | [] => 0
  | p :: rest => (if partyCountry p = some "CA" then (maOf p).length else 0) + keyCaCount rest

/-- Weighted with-country counter: one increment per mailing-address key of
each party with a truthy country. -/
def keyCountryCount : List Party → Nat
  | [] => 0
  | p :: rest => (if strTruthy (partyCountry p) then (maOf p).length else 0) + keyCountryCount rest

/-- Per-party BC count, following the claim text (number of parties whose
mailing-address region equals BC). -/
def specBcParties (ps : List Party) : Nat :=
  (ps.filter (fun p => decide (partyRegion p = some "BC"))).length

/-- Per-party CA count, following the claim text. -/
def specCaParties (ps : List Party) : Nat :=
  (ps.filter (fun p => decide (partyCountry p = some "CA"))).length

/-- Per-party with-country count, following the claim text. -/
def specCountryParties (ps : List Party) : Nat :=
  (ps.filter (fun p => strTruthy (partyCountry p))).length

theorem nullFieldPath_ne_mailAddrPath (ft oid k : String) :
    nullFieldPath ft oid k ≠ mailAddrPath ft := by
  intro h
  have hl := congrArg String.length h
  simp only [nullFieldPath, mailAddrPath, String.length_append] at hl
  have e1 : "/filing/".length = 8 := rfl
  have e2 : "/parties/".length = 9 := rfl
  have e3 : "/mailingAddress/".length = 16 := rfl
  have e4 : "/None/".length = 6 := rfl
  have e5 : "/parties/mailingAddress".length = 23 := rfl
  omega

theorem nullFieldErr_ne_bcMailErr (ft oid k : String) :
    nullFieldErr ft oid k ≠ bcMailErr ft := by
  intro h
  exact nullFieldPath_ne_mailAddrPath ft oid k (by
    have := congrArg ValErr.path h
    simpa [nullFieldErr, bcMailErr] using this)

theorem nullFieldErr_ne_majMailErr (ft oid k : String) :
    nullFieldErr ft oid k ≠ majMailErr ft := by
  intro h
  exact nullFieldPath_ne_mailAddrPath ft oid k (by
    have := congrArg ValErr.path h
    simpa [nullFieldErr, majMailErr] using this)

theorem bcMailErr_ne_majMailErr (ft : String) : bcMailErr ft ≠ majMailErr ft := by
  intro h
  have := congrArg ValErr.error h
  simp [bcMailErr, majMailErr] at this

/-- Success analysis of the inner mailing-address loop: the counters advance
by one conditional increment per key, and every new message is a null-field
error. -/
theorem mailInnerLoop_counts (ft : String) (item : Party)
    (ma kvs : List (String × Option String)) (st res : List ValErr × MailCounts)
    (h : mailInnerLoop ft item ma kvs st = Except.ok res) :
    res.2.bc = st.2.bc + (if pyDictGet ma "addressRegion" = some "BC" then kvs.length else 0) ∧
    res.2.ca = st.2.ca + (if pyDictGet ma "addressCountry" = some "CA" then kvs.length else 0) ∧
    res.2.total = st.2.total +
      (if strTruthy (pyDictGet ma "addressCountry") then kvs.length else 0) ∧
    (∀ e ∈ res.1, e ∈ st.1 ∨ ∃ oid k, e = nullFieldErr ft oid k) := by
  induction kvs generalizing st with
  | nil =>
    simp only [mailInnerLoop, pure, Except.pure, Except.ok.injEq] at h
    subst h
    refine ⟨by split_ifs <;> simp, by split_ifs <;> simp, by split_ifs <;> simp, ?_⟩
    intro e he
    exact Or.inl he
  | cons kv rest ih =>
    obtain ⟨k, v⟩ := kv
    cases v with
    | none =>
      cases hofficer : item.officer with
      | none =>
        simp [mailInnerLoop, hofficer, pyIndex, Bind.bind, Except.bind] at h
      | some o =>
        simp only [mailInnerLoop, hofficer, pyIndex, Bind.bind, Except.bind] at h
        obtain ⟨h1, h2, h3, h4⟩ := ih _ h
        refine ⟨?_, ?_, ?_, ?_⟩
        · rw [h1]
          by_cases hcond : pyDictGet ma "addressRegion" = some "BC" <;>
            simp [hcond] <;> omega
        · rw [h2]
          cases hco : pyDictGet ma "addressCountry" with
          | none => simp [hco]
          | some s =>
            by_cases hs : s = "" <;> by_cases hca : s = "CA" <;>
              simp_all [strTruthy] <;> try omega
        · rw [h3]
          cases hco : pyDictGet ma "addressCountry" with
          | none => simp [hco, strTruthy]
          | some s =>
            by_cases hs : s = "" <;> by_cases hca : s = "CA" <;>
              simp_all [strTruthy] <;> try omega
        · intro e he
          rcases h4 e he with hmem | hnew
          · rcases List.mem_append.mp hmem with hold | hthis
            · exact Or.inl hold
            · right
              exact ⟨o.id, k, (List.mem_singleton.mp hthis)⟩
          · exact Or.inr hnew
    | some s0 =>
      simp only [mailInnerLoop, Bind.bind, Except.bind, pure, Except.pure] at h
      obtain ⟨h1, h2, h3, h4⟩ := ih _ h
      refine ⟨?_, ?_, ?_, h4⟩
      · rw [h1]
        by_cases hcond : pyDictGet ma "addressRegion" = some "BC" <;>
          simp [hcond] <;> omega
      · rw [h2]
        cases hco : pyDictGet ma "addressCountry" with
        | none => simp [hco]
        | some s =>
          by_cases hs : s = "" <;> by_cases hca : s = "CA" <;>
            simp_all [strTruthy] <;> try omega
      · rw [h3]
        cases hco : pyDictGet ma "addressCountry" with
        | none => simp [hco, strTruthy]
        | some s =>
          by_cases hs : s = "" <;> by_cases hca : s = "CA" <;>
            simp_all [strTruthy] <;> try omega

/-- Success analysis of the outer mailing-address loop: the final counters are
the initial ones plus the weighted per-key counts, and every new message is a
null-field error. -/
theorem mailPartiesLoop_counts (ft : String) (ps : List Party)
    (st res : List ValErr × MailCounts)
    (h : mailPartiesLoop ft ps st = Except.ok res) :
    res.2.bc = st.2.bc + keyBcCount ps ∧
    res.2.ca = st.2.ca + keyCaCount ps ∧
    res.2.total = st.2.total + keyCountryCount ps ∧
    (∀ e ∈ res.1, e ∈ st.1 ∨ ∃ oid k, e = nullFieldErr ft oid k) := by
  induction ps generalizing st with
  | nil =>
    simp only [mailPartiesLoop, pure, Except.pure, Except.ok.injEq] at h
    subst h
    exact ⟨by simp [keyBcCount], by simp [keyCaCount], by simp [keyCountryCount],
      fun e he => Or.inl he⟩
  | cons item rest ih =>
    cases hma : item.mailingAddress with
    | none =>
      simp [mailPartiesLoop, hma, pyIndex, Bind.bind, Except.bind] at h
    | some ma =>
      simp only [mailPartiesLoop, hma, pyIndex, Bind.bind, Except.bind] at h
      cases hinner : mailInnerLoop ft item ma ma st with
      | error e => rw [hinner] at h; simp at h
      | ok st2 =>
        rw [hinner] at h
        obtain ⟨i1, i2, i3, i4⟩ := mailInnerLoop_counts ft item ma ma st st2 hinner
        obtain ⟨o1, o2, o3, o4⟩ := ih _ h
        have hmaOf : maOf item = ma := by simp [maOf, hma]
        refine ⟨?_, ?_, ?_, ?_⟩
        · rw [o1, i1, keyBcCount]
          simp only [partyRegion, hmaOf]
          omega
        · rw [o2, i2, keyCaCount]
          simp only [partyCountry, hmaOf]
          omega
        · rw [o3, i3, keyCountryCount]
          simp only [partyCountry, hmaOf]
          omega
        · intro e he
          rcases o4 e he with hmem | hnew
          · rcases i4 e hmem with hold | hnew2
            · exact Or.inl hold
            · exact Or.inr hnew2
          · exact Or.inr hnew

/-- The inner loop succeeds when every null value sits in a party with an
officer record. -/
theorem mailInnerLoop_ok (ft : String) (item : Party)
    (ma kvs : List (String × Option String)) (st : List ValErr × MailCounts)
    (hok : ∀ kv ∈ kvs, kv.2 ≠ none ∨ item.officer ≠ none) :
    ∃ res, mailInnerLoop ft item ma kvs st = Except.ok res := by
  induction kvs generalizing st with
  | nil => exact ⟨st, rfl⟩
  | cons kv rest ih =>
    obtain ⟨k, v⟩ := kv
    have hrest : ∀ kv ∈ rest, kv.2 ≠ none ∨ item.officer ≠ none :=
      fun kv hkv => hok kv (List.mem_cons_of_mem _ hkv)
    cases v with
    | none =>
      have : item.officer ≠ none := by
        rcases hok (k, none) (List.mem_cons_self _ _) with hv | ho
        · exact absurd rfl hv
        · exact ho
      cases hofficer : item.officer with
      | none => exact absurd hofficer this
      | some o =>
        obtain ⟨res, hres⟩ := ih _ hrest
        exact ⟨res, by
          simp only [mailInnerLoop, hofficer, pyIndex, Bind.bind, Except.bind]
          exact hres⟩
    | some s =>
      obtain ⟨res, hres⟩ := ih _ hrest
      exact ⟨res, by
        simp only [mailInnerLoop, Bind.bind, Except.bind, pure, Except.pure]
        exact hres⟩

/-- The outer loop succeeds when every party has a mailing-address dict and
every null value sits in a party with an officer record. -/
theorem mailPartiesLoop_ok (ft : String) (ps : List Party)
    (st : List ValErr × MailCounts)
    (hma : ∀ p ∈ ps, p.mailingAddress ≠ none)
    (hoff : ∀ p ∈ ps, ∀ kv ∈ maOf p, kv.2 ≠ none ∨ p.officer ≠ none) :
    ∃ res, mailPartiesLoop ft ps st = Except.ok res := by
  induction ps generalizing st with
  | nil => exact ⟨st, rfl⟩
  | cons item rest ih =>
    cases hmav : item.mailingAddress with
    | none => exact absurd hmav (hma item (List.mem_cons_self _ _))
    | some ma =>
      have hitem : ∀ kv ∈ ma, kv.2 ≠ none ∨ item.officer ≠ none := by
        intro kv hkv
        have := hoff item (List.mem_cons_self _ _) kv
        rw [maOf, hmav] at this
        exact this hkv
      obtain ⟨st2, hst2⟩ := mailInnerLoop_ok ft item ma ma st hitem
      obtain ⟨res, hres⟩ := ih _
        (fun p hp => hma p (List.mem_cons_of_mem _ hp))
        (fun p hp => hoff p (List.mem_cons_of_mem _ hp))
      exact ⟨res, by
        simp only [mailPartiesLoop, hmav, pyIndex, Bind.bind, Except.bind, hst2]
        exact hres⟩

/-- When no party has a truthy country value, the weighted counter is zero. -/
theorem keyCountryCount_zero (ps : List Party)
    (h : ∀ p ∈ ps, strTruthy (partyCountry p) = false) :
    keyCountryCount ps = 0 := by
  induction ps with
  | nil => rfl
  | cons p rest ih =>
    rw [keyCountryCount, h p (List.mem_cons_self _ _)]
    simp only [Bool.false_eq_true, if_false, Nat.zero_add]
    exact ih (fun q hq => h q (List.mem_cons_of_mem _ hq))

/-- A one-party document for exercising the roles validator. -/
def rolesDoc : Doc :=
  docOfSection ⟨none, none,
    some [⟨some ⟨"1"⟩, some [⟨"Completing Party"⟩, ⟨"Incorporator"⟩, ⟨"Director"⟩], none⟩],
    none, none, none⟩

/-- Witness for C6 at a benefit-company filing with exactly one completing
party. -/
theorem C6_completing_party_rules_witness :
    countMsg (optErrs none) "Must have a minimum of one completing party" =
      (if specCompletingCount (sectionParties rolesDoc) = 0 then 1 else 0) ∧
    countMsg (optErrs none) "Must have a maximum of one completing party" =
      (if 1 < specCompletingCount (sectionParties rolesDoc) then 1 else 0) :=
  C6_completing_party_rules rolesDoc "BEN" none rfl

/-- C3. For every cooperative filing whose parties all carry a mailing-address
dict, whose null-valued fields (if any) sit in parties with an officer record,
and in which no party has a truthy mailing-address country, the mailing-address
validator raises `ZeroDivisionError` instead of returning an error list or
`None`. -/
theorem C3_zero_division (d : Doc) (sec : FilingSection) (ps : List Party)
    (hsec : getSection d "incorporationApplication" = Except.ok sec)
    (hps : sec.parties = some ps)
    (hma : ∀ p ∈ ps, p.mailingAddress ≠ none)
    (hoff : ∀ p ∈ ps, ∀ kv ∈ maOf p, kv.2 ≠ none ∨ p.officer ≠ none)
    (hcountry : ∀ p ∈ ps, strTruthy (partyCountry p) = false) :
    validate_parties_mailing_address d LegalTypes.COOP "incorporationApplication" =
      Except.error PyExc.zeroDivisionError := by
  obtain ⟨res, hres⟩ :=
    mailPartiesLoop_ok "incorporationApplication" ps ([], ⟨0, 0, 0⟩) hma hoff
  obtain ⟨c1, c2, c3, c4⟩ := mailPartiesLoop_counts _ _ _ _ hres
  have htot : res.2.total = 0 := by
    rw [c3, keyCountryCount_zero ps hcountry]
  rw [validate_parties_mailing_address, hsec]
  simp [hps, pyIndex, Bind.bind, Except.bind, hres, htot]

/-- The section of the concrete zero-division document. -/
def zeroDivSec : FilingSection :=
  ⟨none, none, some [⟨some ⟨"1"⟩, none, some [("addressRegion", some "BC")]⟩],
    none, none, none⟩

/-- A cooperative filing whose single party has no country value. -/
def zeroDivDoc : Doc := docOfSection zeroDivSec

/-- Witness for C3 at the concrete no-country cooperative filing. -/
theorem C3_zero_division_witness :
    validate_parties_mailing_address zeroDivDoc LegalTypes.COOP "incorporationApplication" =
      Except.error PyExc.zeroDivisionError :=
  C3_zero_division zeroDivDoc zeroDivSec
    [⟨some ⟨"1"⟩, none, some [("addressRegion", some "BC")]⟩]
    rfl rfl (by decide) (by decide) (by decide)

/-- The error list of a mailing-address validator outcome (empty on `None` or
on a fault). -/
def exceptErrs (r : Except PyExc (Option (List ValErr))) : List ValErr :=
  match r with
  | Except.ok (some l) => l
  | Except.ok none => []
  | Except.error _ => []

/-- The claim C2 formalised exactly as stated, following the specification
words (refinement reading): the three counters count PARTIES, the majority
error fires exactly when the per-party CA proportion does not exceed 50
percent, and the minimum-BC error exactly when the per-party BC count is
zero. -/
def perPartyCounterClaim (d : Doc) : Bool :=
  let ps := sectionParties d
  let errs := exceptErrs
    (validate_parties_mailing_address d LegalTypes.COOP "incorporationApplication")
  (decide (majMailErr "incorporationApplication" ∈ errs) ==
    decide (100 * specCaParties ps ≤ 50 * specCountryParties ps)) &&
  (decide (bcMailErr "incorporationApplication" ∈ errs) ==
    decide (specBcParties ps = 0))

/-- Two cooperative parties: one CA-country party with a three-key mailing
address, one US-country party with a one-key mailing address. Per party the
CA proportion is 1 of 2 (50 percent, so the claimed rule demands the majority
error); per key the code counts 3 of 4 (75 percent) and emits nothing. -/
def mailCxParties : List Party :=
  [⟨some ⟨"1"⟩, none, some [("addressCountry", some "CA"), ("addressRegion", some "BC"),
      ("deliveryInstructions", some "x")]⟩,
   ⟨some ⟨"2"⟩, none, some [("addressCountry", some "US")]⟩]

/-- The concrete cooperative document refuting the per-party reading of C2. -/
def mailCxDoc : Doc := docOfSection ⟨none, none, some mailCxParties, none, none, none⟩

/-- Counterexample to C2 as stated: on `mailCxDoc` the code emits no majority
error although only 50 percent of the parties with a country are CA parties,
because the source increments its counters once per mailing-address key, not
once per party. -/
theorem C2_counterexample_per_party : perPartyCounterClaim mailCxDoc = false := by
  decide

/-- C2 as amended. For every cooperative filing on which the mailing-address
validator returns (rather than faults), the majority error is emitted exactly
when the key-weighted CA count does not exceed 50 percent of the key-weighted
with-country count, and the minimum-one-BC error exactly when the key-weighted
BC count is zero. -/
theorem C2_weighted_counters (d : Doc) (r : Option (List ValErr))
    (h : validate_parties_mailing_address d LegalTypes.COOP "incorporationApplication" =
      Except.ok r) :
    ((majMailErr "incorporationApplication" ∈ optErrs r) ↔
      100 * keyCaCount (sectionParties d) ≤ 50 * keyCountryCount (sectionParties d)) ∧
    ((bcMailErr "incorporationApplication" ∈ optErrs r) ↔
      keyBcCount (sectionParties d) = 0) := by
  cases hsec : getSection d "incorporationApplication" with
  | error e =>
    rw [validate_parties_mailing_address, hsec] at h
    simp [Bind.bind, Except.bind] at h
  | ok sec =>
    cases hps : sec.parties with
    | none =>
      rw [validate_parties_mailing_address, hsec] at h
      simp [Bind.bind, Except.bind, hps, pyIndex] at h
    | some ps =>
      cases hloop : mailPartiesLoop "incorporationApplication" ps ([], ⟨0, 0, 0⟩) with
      | error e =>
        rw [validate_parties_mailing_address, hsec] at h
        simp [Bind.bind, Except.bind, hps, pyIndex, hloop] at h
      | ok st =>
        rw [validate_parties_mailing_address, hsec] at h
        simp only [Bind.bind, Except.bind, hps, pyIndex, hloop] at h
        obtain ⟨c1, c2, c3, c4⟩ := mailPartiesLoop_counts _ _ _ _ hloop
        simp only [Nat.zero_add] at c1 c2 c3
        have hparties : sectionParties d = ps := by
          simp [sectionParties, hsec, hps]
        have hnotin_bc : bcMailErr "incorporationApplication" ∉ st.1 := by
          intro hmem
          rcases c4 _ hmem with h0 | ⟨oid, k, he⟩
          · simp at h0
          · exact nullFieldErr_ne_bcMailErr _ oid k he.symm
        have hnotin_maj : majMailErr "incorporationApplication" ∉ st.1 := by
          intro hmem
          rcases c4 _ hmem with h0 | ⟨oid, k, he⟩
          · simp at h0
          · exact nullFieldErr_ne_majMailErr _ oid k he.symm
        have hne1 := bcMailErr_ne_majMailErr "incorporationApplication"
        have hne2 : majMailErr "incorporationApplication" ≠
            bcMailErr "incorporationApplication" := fun he => hne1 he.symm
        rw [hparties, ← c1, ← c2, ← c3]
        by_cases htot : st.2.total = 0
        · simp [htot] at h
        · by_cases hbc : st.2.bc < 1 <;> by_cases hmaj : 100 * st.2.ca ≤ 50 * st.2.total <;>
            simp only [htot, hbc, hmaj, if_true, if_false, ite_true, ite_false,
              pure, Except.pure, Except.ok.injEq] at h <;>
            rw [← h, optErrs_ofIsEmpty] <;>
            constructor <;>
            simp [List.mem_append, hnotin_bc, hnotin_maj, hne1, hne2, hbc, hmaj] <;>
            omega

/-- Witness for C2 as amended, at the concrete two-party document. -/
theorem C2_weighted_counters_witness :
    ((majMailErr "incorporationApplication" ∈ optErrs none) ↔
      100 * keyCaCount (sectionParties mailCxDoc) ≤
        50 * keyCountryCount (sectionParties mailCxDoc)) ∧
    ((bcMailErr "incorporationApplication" ∈ optErrs none) ↔
      keyBcCount (sectionParties mailCxDoc) = 0) :=
  C2_weighted_counters mailCxDoc none rfl

/-! ## C8: invalid office keys -/

/-- Whether an offices key is one of the two allowed office roles. -/
def isAllowedOffice (k : String) : Bool :=
  decide (k = "registeredOffice" ∨ k = "recordsOffice")

theorem regionPath_ne_officesPath (ft ak k : String) :
    regionPath ft ak k ≠ officesPath ft := by
  intro h
  have hl := congrArg String.length h
  simp only [regionPath, officesPath, String.length_append] at hl
  have e1 : "/filing/".length = 8 := rfl
  have e2 : "/offices/".length = 9 := rfl
  have e3 : "/".length = 1 := rfl
  have e4 : "/addressRegion".length = 14 := rfl
  have e5 : "/offices".length = 8 := rfl
  omega

theorem countryPath_ne_officesPath (ft ak k : String) :
    countryPath ft ak k ≠ officesPath ft := by
  intro h
  have hl := congrArg String.length h
  simp only [countryPath, officesPath, String.length_append] at hl
  have e1 : "/filing/".length = 8 := rfl
  have e2 : "/offices/".length = 9 := rfl
  have e3 : "/".length = 1 := rfl
  have e4 : "/addressCountry".length = 15 := rfl
  have e5 : "/offices".length = 8 := rfl
  omega

/-- Address-entry errors never carry the invalid-office path. -/
theorem addressEntryErrors_paths (fuzzy : String → Option String)
    (ft ak k : String) (v : Address) (errs : List ValErr)
    (h : addressEntryErrors fuzzy ft ak k v = Except.ok errs) :
    ∀ e ∈ errs, e.path ≠ some (officesPath ft) := by
  cases hc : v.addressCountry with
  | none => simp [addressEntryErrors, hc, pyIndex, Bind.bind, Except.bind] at h
  | some c =>
    simp only [addressEntryErrors, hc, pyIndex, Bind.bind, Except.bind, pure,
      Except.pure, Except.ok.injEq] at h
    intro e he
    rw [← h] at he
    rcases List.mem_append.mp he with h1 | h2
    · split_ifs at h1 with hcond
      · rw [List.mem_singleton.mp h1]
        intro hpath
        exact regionPath_ne_officesPath ft ak k (Option.some.inj hpath)
      · simp at h1
    · cases hf : fuzzy c with
      | none =>
        rw [hf] at h2
        simp at h2
        rw [h2]
        intro hpath
        exact countryPath_ne_officesPath ft ak k (Option.some.inj hpath)
      | some a2 =>
        rw [hf] at h2
        by_cases hcond : a2 ≠ "CA"
        · simp [hcond] at h2
          rw [h2]
          intro hpath
          exact countryPath_ne_officesPath ft ak k (Option.some.inj hpath)
        · simp [hcond] at h2

/-- The address loop never produces the invalid-office path. -/
theorem addressLoop_paths (fuzzy : String → Option String) (ft ak : String)
    (entries : List (String × Address)) (errs : List ValErr)
    (h : addressLoop fuzzy ft ak entries = Except.ok errs) :
    ∀ e ∈ errs, e.path ≠ some (officesPath ft) := by
  induction entries generalizing errs with
  | nil =>
    simp only [addressLoop, pure, Except.pure, Except.ok.injEq] at h
    rw [← h]
    intro e he
    simp at he
  | cons kv rest ih =>
    obtain ⟨k, v⟩ := kv
    cases hone : addressEntryErrors fuzzy ft ak k v with
    | error ex => simp [addressLoop, hone, Bind.bind, Except.bind] at h
    | ok head =>
      cases hrest : addressLoop fuzzy ft ak rest with
      | error ex => simp [addressLoop, hone, hrest, Bind.bind, Except.bind] at h
      | ok tail =>
        simp only [addressLoop, hone, hrest, Bind.bind, Except.bind, pure,
          Except.pure, Except.ok.injEq] at h
        intro e he
        rw [← h] at he
        rcases List.mem_append.mp he with h1 | h2
        · exact addressEntryErrors_paths fuzzy ft ak k v head hone e h1
        · exact ih tail hrest e h2

/-- Function `_validate_address` never produces the invalid-office path. -/
theorem _validate_address_paths (fuzzy : String → Option String)
    (addresses : Offices) (ak ft : String) (errs : List ValErr)
    (h : _validate_address fuzzy addresses ak ft = Except.ok errs) :
    ∀ e ∈ errs, e.path ≠ some (officesPath ft) := by
  cases hlk : alookup addresses ak with
  | none => simp [_validate_address, hlk, pyIndex, Bind.bind, Except.bind] at h
  | some entries =>
    simp only [_validate_address, hlk, pyIndex, Bind.bind, Except.bind] at h
    exact addressLoop_paths fuzzy ft ak entries errs h

/-- On success, the office loop emits exactly one invalid-office-path error
per key outside the two allowed office roles. -/
theorem officesLoop_invalid_count (fuzzy : String → Option String)
    (addresses : Offices) (ft : String) (keys : List String) (errs : List ValErr)
    (h : officesLoop fuzzy addresses ft keys = Except.ok errs) :
    (errs.filter (fun e => decide (e.path = some (officesPath ft)))).length =
      (keys.filter (fun k => !isAllowedOffice k)).length := by
  induction keys generalizing errs with
  | nil =>
    simp only [officesLoop, pure, Except.pure, Except.ok.injEq] at h
    rw [← h]
    simp
  | cons item rest ih =>
    by_cases hallow : item = "registeredOffice" ∨ item = "recordsOffice"
    · cases hva : _validate_address fuzzy addresses item ft with
      | error ex =>
        simp [officesLoop, if_pos hallow, hva, Bind.bind, Except.bind] at h
      | ok head =>
        cases hrest : officesLoop fuzzy addresses ft rest with
        | error ex =>
          simp [officesLoop, if_pos hallow, hva, hrest, Bind.bind, Except.bind] at h
        | ok tail =>
          simp only [officesLoop, if_pos hallow, hva, hrest, Bind.bind, Except.bind,
            pure, Except.pure, Except.ok.injEq] at h
          rw [← h, List.filter_append, List.length_append]
          have hhead : head.filter (fun e => decide (e.path = some (officesPath ft))) = [] := by
            rw [List.filter_eq_nil_iff]
            intro e he
            simpa using _validate_address_paths fuzzy addresses item ft head hva e he
          rw [hhead]
          simp only [List.length_nil, Nat.zero_add, List.filter_cons]
          have : (!isAllowedOffice item) = false := by
            simp [isAllowedOffice, hallow]
          rw [this]
          simp only [Bool.false_eq_true, if_false]
          exact ih tail hrest
    · cases hrest : officesLoop fuzzy addresses ft rest with
      | error ex =>
        simp [officesLoop, if_neg hallow, hrest, Bind.bind, Except.bind,
          pure, Except.pure] at h
      | ok tail =>
        simp only [officesLoop, if_neg hallow, hrest, Bind.bind, Except.bind,
          pure, Except.pure, Except.ok.injEq] at h
        rw [← h, List.filter_append, List.length_append]
        have hinv : ([invalidOfficeErr ft item].filter
            (fun e => decide (e.path = some (officesPath ft)))) = [invalidOfficeErr ft item] := by
          simp [invalidOfficeErr]
        rw [hinv]
        simp only [List.length_singleton, List.filter_cons]
        have : (!isAllowedOffice item) = true := by
          simp [isAllowedOffice, hallow]
        rw [this]
        simp only [if_true]
        rw [ih tail hrest]
        simp [Nat.add_comm]

/-- Function `_validate_address` only reads the mapping through the looked-up key. -/
theorem _validate_address_congr (fuzzy : String → Option String)
    (addresses addresses2 : Offices) (ak ft : String)
    (h : alookup addresses ak = alookup addresses2 ak) :
    _validate_address fuzzy addresses ak ft =
      _validate_address fuzzy addresses2 ak ft := by
  simp [_validate_address, h]

/-- The office loop only reads address data under the two allowed roles. -/
theorem officesLoop_congr (fuzzy : String → Option String)
    (addresses addresses2 : Offices) (ft : String) (keys : List String)
    (hlk : ∀ j, (j = "registeredOffice" ∨ j = "recordsOffice") →
      alookup addresses j = alookup addresses2 j) :
    officesLoop fuzzy addresses ft keys = officesLoop fuzzy addresses2 ft keys := by
  induction keys with
  | nil => rfl
  | cons item rest ih =>
    simp only [officesLoop]
    rw [ih]
    by_cases hallow : item = "registeredOffice" ∨ item = "recordsOffice"
    · rw [_validate_address_congr fuzzy addresses addresses2 item ft (hlk item hallow)]
    · simp only [if_neg hallow]

/-- Counting offending entries through the key projection. -/
theorem filter_map_fst_length (l : Offices) (p : String → Bool) :
    ((l.map Prod.fst).filter p).length = (l.filter (fun kv => p kv.1)).length := by
  induction l with
  | nil => rfl
  | cons kv rest ih =>
    simp only [List.map_cons, List.filter_cons]
    by_cases hp : p kv.1 = true
    · rw [hp]
      simp [ih]
    · rw [Bool.not_eq_true] at hp
      rw [hp]
      simp [ih]

/-- A document whose incorporation-application section only has offices. -/
def docWithOffices (offs : Offices) : Doc :=
  docOfSection ⟨none, some offs, none, none, none, none⟩

/-- C8. For every offices mapping on which the office validator returns, the
errors carrying the invalid-office path are exactly one per key outside
{registeredOffice, recordsOffice}, and the outcome is unchanged by replacing
the address data stored under the offending keys (such data is never
validated): any mapping with the same key sequence agreeing under the two
allowed roles yields the identical error list. -/
theorem C8_invalid_offices (fuzzy : String → Option String) (offs offs2 : Offices)
    (errs : List ValErr)
    (h : validate_offices fuzzy (docWithOffices offs) "incorporationApplication" =
      Except.ok errs)
    (hkeys : offs.map Prod.fst = offs2.map Prod.fst)
    (hallowed : ∀ j, (j = "registeredOffice" ∨ j = "recordsOffice") →
      alookup offs j = alookup offs2 j) :
    (errs.filter (fun e =>
      decide (e.path = some (officesPath "incorporationApplication")))).length =
      (offs.filter (fun kv => !isAllowedOffice kv.1)).length ∧
    validate_offices fuzzy (docWithOffices offs2) "incorporationApplication" =
      Except.ok errs := by
  have hred : validate_offices fuzzy (docWithOffices offs) "incorporationApplication" =
      officesLoop fuzzy offs "incorporationApplication" (offs.map Prod.fst) := rfl
  have hred2 : validate_offices fuzzy (docWithOffices offs2) "incorporationApplication" =
      officesLoop fuzzy offs2 "incorporationApplication" (offs2.map Prod.fst) := rfl
  rw [hred] at h
  constructor
  · rw [officesLoop_invalid_count fuzzy offs "incorporationApplication" _ errs h]
    exact filter_map_fst_length offs (fun k => !isAllowedOffice k)
  · rw [hred2, ← hkeys,
      ← officesLoop_congr fuzzy offs offs2 "incorporationApplication" (offs.map Prod.fst) hallowed]
    exact h

/-- A fuzzy-country stub resolving the word Canada and nothing else. -/
def cxFuzzy : String → Option String :=
  fun s => if s = "Canada" then some "CA" else none

/-- A two-office mapping with one offending key holding address data. -/
def cxOffices : Offices :=
  [("registeredOffice", [("deliveryAddress", ⟨some "BC", some "Canada"⟩)]),
   ("warehouse", [("x", ⟨none, none⟩)])]

/-- The same mapping with different data under the offending key. -/
def cxOffices2 : Offices :=
  [("registeredOffice", [("deliveryAddress", ⟨some "BC", some "Canada"⟩)]),
   ("warehouse", [])]

/-- Witness for C8 at the concrete two-office mapping. -/
theorem C8_invalid_offices_witness :
    (([invalidOfficeErr "incorporationApplication" "warehouse"].filter (fun e =>
      decide (e.path = some (officesPath "incorporationApplication")))).length =
      (cxOffices.filter (fun kv => !isAllowedOffice kv.1)).length) ∧
    validate_offices cxFuzzy (docWithOffices cxOffices2) "incorporationApplication" =
      Except.ok [invalidOfficeErr "incorporationApplication" "warehouse"] :=
  C8_invalid_offices cxFuzzy cxOffices cxOffices2
    [invalidOfficeErr "incorporationApplication" "warehouse"] rfl rfl
    (by intro j hj; rcases hj with hj | hj <;> subst hj <;> rfl)

/-! ## C9: missing cooperative file keys raise KeyError -/

/-- The cooperative section of the concrete key-error document: truthy, with
`memorandumFileKey` present but `rulesFileKey` absent. -/
def coopSecCx : CoopSection := ⟨none, some "mem-key", []⟩

/-- The incorporation-application section of the key-error document. -/
def coopDocSec : FilingSection :=
  ⟨some ⟨some "CP"⟩, some [],
    some [⟨some ⟨"1"⟩, some [], some [("addressCountry", some "CA")]⟩],
    some coopSecCx, none, none⟩

/-- A cooperative filing whose cooperative section lacks `rulesFileKey`. -/
def coopKeyErrDoc : Doc := docOfSection coopDocSec

/-- C9. When the cooperative sub-section is present and non-empty but lacks
`rulesFileKey` or `memorandumFileKey`, the cooperative-documents validator
raises `KeyError` (for every PDF collaborator); and on the concrete document
the fault propagates out of `validate` for every collaborator assignment and
clock, instead of surfacing as a collected validation error. -/
theorem C9_coop_missing_file_keys :
    (∀ (vpdf : String → String → List ValErr) (d : Doc) (sec : FilingSection)
      (coop : CoopSection),
      getSection d "incorporationApplication" = Except.ok sec →
      sec.cooperative = some coop →
      coopTruthy coop = true →
      (coop.rulesFileKey = none ∨ coop.memorandumFileKey = none) →
      validate_cooperative_documents vpdf d = Except.error PyExc.keyError) ∧
    (∀ (C : Collaborators) (now : Int),
      validate C now coopKeyErrDoc = Except.error PyExc.keyError) := by
  constructor
  · intro vpdf d sec coop hsec hcoop htruthy hkey
    rw [validate_cooperative_documents, hsec]
    simp only [Bind.bind, Except.bind, hcoop, htruthy, Bool.not_true, if_false,
      Bool.false_eq_true]
    rcases hkey with hk | hk
    · simp [hk, pyIndex]
    · cases hr : coop.rulesFileKey with
      | none => simp [hr, pyIndex]
      | some rk => simp [hr, hk, pyIndex]
  · intro C now
    rfl

/-- Witness for C9: the concrete truthy cooperative section missing
`rulesFileKey` makes the validator raise. -/
theorem C9_coop_missing_file_keys_witness :
    validate_cooperative_documents (fun _ _ => []) coopKeyErrDoc =
      Except.error PyExc.keyError :=
  C9_coop_missing_file_keys.1 (fun _ _ => []) coopKeyErrDoc coopDocSec coopSecCx
    rfl rfl rfl (Or.inl rfl)

/-! ## C10: address field lookups -/

/-- A document whose registered office has an address with neither region nor
country key. -/
def missingCountryDoc : Doc :=
  docOfSection ⟨some ⟨some "BEN"⟩,
    some [("registeredOffice", [("mailingAddress", ⟨none, none⟩)])],
    none, none, none, none⟩

/-- C10. In `_validate_address`, an address entry without `addressRegion` is
tolerated and yields the region-must-be-BC error (an absent region compares
unequal to BC); an entry without `addressCountry` raises `KeyError`, and on
the concrete document that fault propagates out of `validate` for every
collaborator assignment and clock. -/
theorem C10_address_key_handling (fuzzy : String → Option String)
    (akey k c ft : String) (region : Option String) :
    (∃ errs, _validate_address fuzzy [(akey, [(k, ⟨none, some c⟩)])] akey ft =
        Except.ok errs ∧
      (⟨"Address Region must be \x27BC\x27.", some (regionPath ft akey k)⟩ : ValErr) ∈ errs) ∧
    _validate_address fuzzy [(akey, [(k, ⟨region, none⟩)])] akey ft =
      Except.error PyExc.keyError ∧
    (∀ (C : Collaborators) (now : Int),
      validate C now missingCountryDoc = Except.error PyExc.keyError) := by
  refine ⟨?_, ?_, ?_⟩
  · cases hf : fuzzy c with
    | none =>
      refine ⟨[⟨"Address Region must be \x27BC\x27.", some (regionPath ft akey k)⟩,
        ⟨"Address Country must be \x27CA\x27.", some (countryPath ft akey k)⟩], ?_, ?_⟩
      · simp [_validate_address, alookup, addressLoop, addressEntryErrors, pyIndex,
          Bind.bind, Except.bind, hf, pure, Except.pure]
      · simp
    | some a2 =>
      by_cases ha : a2 = "CA"
      · refine ⟨[⟨"Address Region must be \x27BC\x27.", some (regionPath ft akey k)⟩], ?_, ?_⟩
        · simp [_validate_address, alookup, addressLoop, addressEntryErrors, pyIndex,
            Bind.bind, Except.bind, hf, ha, pure, Except.pure]
        · simp
      · refine ⟨[⟨"Address Region must be \x27BC\x27.", some (regionPath ft akey k)⟩,
          ⟨"Address Country must be \x27CA\x27.", some (countryPath ft akey k)⟩], ?_, ?_⟩
        · simp [_validate_address, alookup, addressLoop, addressEntryErrors, pyIndex,
            Bind.bind, Except.bind, hf, ha, pure, Except.pure]
        · simp
  · simp [_validate_address, alookup, addressLoop, addressEntryErrors, pyIndex,
      Bind.bind, Except.bind]
  · intro C now
    rfl

end IncorporationApplication
